import Mathlib

set_option maxHeartbeats 1000000

/-
Verification of the version-extract-action core (extractor, git tag
resolver, file reader) against its natural-language specification.

Strings are modelled as lists of characters (`GoStr`).  Go standard
library helpers (`strings.TrimSpace`, `strings.Trim`, `strings.HasPrefix`,
`strings.TrimPrefix`, `strings.ToLower`, `strings.Split`) are translated
directly below.  `unicode.IsSpace` and `strings.ToLower` are modelled on
the Latin-1 range, which covers every character the configuration and the
analysed claims exercise.
-/

namespace VEA

/-- Go strings, modelled as lists of characters. -/
abbrev GoStr := List Char

/-- Conversion from Lean string literals to the Go string model. -/
def gs (s : String) : GoStr := s.toList

/-- Character class of `unicode.IsSpace` restricted to Latin-1
(space, tab, newline, vertical tab, form feed, carriage return,
next line, no-break space). -/
def isGoSpace (c : Char) : Bool :=
  c = ' ' || c = '\t' || c = '\n' || c = Char.ofNat 11 || c = Char.ofNat 12 ||
  c = '\r' || c = Char.ofNat 133 || c = Char.ofNat 160

/-- strings.TrimLeftFunc: drop the longest prefix of characters satisfying p. -/
def goTrimLeftIf (p : Char → Bool) (l : GoStr) : GoStr := l.dropWhile p

/-- strings.TrimRightFunc: drop the longest suffix of characters satisfying p. -/
def goTrimRightIf (p : Char → Bool) (l : GoStr) : GoStr :=
  (l.reverse.dropWhile p).reverse

/-- strings.TrimSpace. -/
def goTrimSpace (l : GoStr) : GoStr := goTrimRightIf isGoSpace (goTrimLeftIf isGoSpace l)

/-- The single-quote character, written by code point. -/
def squote : Char := Char.ofNat 39

/-- The cutset used by the extractor to strip surrounding quotes. -/
def isQuoteChar (c : Char) : Bool := c = '"' || c = squote

/-- strings.Trim with a character-class cutset. -/
def goTrimCut (p : Char → Bool) (l : GoStr) : GoStr := goTrimRightIf p (goTrimLeftIf p l)

/-- strings.HasPrefix. -/
def goStartsWith (l pre : GoStr) : Bool := pre.isPrefixOf l

/-- strings.HasSuffix. -/
def goEndsWith (l suf : GoStr) : Bool := suf.isSuffixOf l

/-- strings.TrimPrefix. -/
def goTrimPre (l pre : GoStr) : GoStr := if pre.isPrefixOf l then l.drop pre.length else l

/-- strings.ToLower, modelled on ASCII letters (all configured prefixes are ASCII). -/
def asciiToLower (c : Char) : Char :=
  if 'A' ≤ c && c ≤ 'Z' then Char.ofNat (c.toNat + 32) else c

/-- strings.ToLower on a whole string. -/
def goToLower (l : GoStr) : GoStr := l.map asciiToLower

/-- strings.Split on the newline character (how the extractor splits file
content into lines). -/
def splitLines (l : GoStr) : List GoStr := l.splitOn '\n'

/-- Decimal digit test, as the regex class [0-9]. -/
def isDigitCh (c : Char) : Bool := '0' ≤ c && c ≤ '9'

/-- ASCII letter test, as the regex class [a-zA-Z]. -/
def isAlphaCh (c : Char) : Bool := ('a' ≤ c && c ≤ 'z') || ('A' ≤ c && c ≤ 'Z')

/-! ## Version validity patterns of the extractor (extractor.go)

The four anchored regular expressions `semverPattern`, `pythonStylePattern`,
`simplePattern` and `datePattern` are concrete, so each is translated into an
equivalent executable recognizer.  Each pattern is anchored on both sides and
deterministic (every repeated class is delimited by a character outside the
class), so maximal-munch parsing coincides with the regex semantics. -/

/-- The semver numeric identifier 0|[1-9]\d*: digits, no leading zero unless "0". -/
def isNumericId (s : GoStr) : Bool :=
  !s.isEmpty && s.all isDigitCh && (s = gs "0" || s.head? != some '0')

/-- One dot-separated pre-release identifier of `semverPattern`:
0|[1-9]\d*|\d*[a-zA-Z-][0-9a-zA-Z-]*. -/
def preReleaseIdOk (s : GoStr) : Bool :=
  !s.isEmpty && s.all (fun c => isDigitCh c || isAlphaCh c || c = '-') &&
    (if s.all isDigitCh then isNumericId s else true)

/-- One dot-separated build identifier of `semverPattern`: [0-9a-zA-Z-]+. -/
def buildIdOk (s : GoStr) : Bool :=
  !s.isEmpty && s.all (fun c => isDigitCh c || isAlphaCh c || c = '-')

/-- The build-metadata part after the plus sign. -/
def buildOk (s : GoStr) : Bool := (s.splitOn '.').all buildIdOk && !s.isEmpty

/-- The pre-release part after the dash. -/
def preReleaseOk (s : GoStr) : Bool := (s.splitOn '.').all preReleaseIdOk && !s.isEmpty

/-- The optional -prerelease and +build tail of `semverPattern`. -/
def semverTailOk (r : GoStr) : Bool :=
  match r with
  | [] => true
  | '-' :: r6 =>
    let pre := r6.takeWhile (fun c => c != '+')
    (match r6.dropWhile (fun c => c != '+') with
     | [] => preReleaseOk pre
     | '+' :: b => preReleaseOk pre && buildOk b
     | _ => false)
  | '+' :: b => buildOk b
  | _ => false

/-- `semverPattern` of extractor.go: the official semver.org regular
expression with an optional leading v. -/
def semverMatch (s : GoStr) : Bool :=
  let s1 := match s with
    | 'v' :: r => r
    | _ => s
  let maj := s1.takeWhile isDigitCh
  match s1.dropWhile isDigitCh with
  | '.' :: r1 =>
    let minor := r1.takeWhile isDigitCh
    (match r1.dropWhile isDigitCh with
     | '.' :: r2 =>
       let patch := r2.takeWhile isDigitCh
       isNumericId maj && isNumericId minor && isNumericId patch &&
         semverTailOk (r2.dropWhile isDigitCh)
     | _ => false)
  | _ => false

/-- `pythonStylePattern` of extractor.go: [0-9]+\.[0-9]+\.[0-9]+\.[a-zA-Z][0-9a-zA-Z]*. -/
def pythonStyleMatch (s : GoStr) : Bool :=
  match s.splitOn '.' with
  | [a, b, c, d] =>
    !a.isEmpty && a.all isDigitCh && !b.isEmpty && b.all isDigitCh &&
    !c.isEmpty && c.all isDigitCh &&
    (match d with
     | e :: tail => isAlphaCh e && tail.all (fun x => isDigitCh x || isAlphaCh x)
     | [] => false)
  | _ => false

/-- `simplePattern` of extractor.go: [0-9]+(\.[0-9]+)(0 to 3 repetitions). -/
def simpleMatch (s : GoStr) : Bool :=
  let parts := s.splitOn '.'
  decide (1 ≤ parts.length) && decide (parts.length ≤ 4) &&
    parts.all (fun p => !p.isEmpty && p.all isDigitCh)

/-- `datePattern` of extractor.go: [0-9]-4-times followed by any number of
two-digit dot groups. -/
def dateMatch (s : GoStr) : Bool :=
  match s.splitOn '.' with
  | [] => false
  | a :: rest =>
    decide (a.length = 4) && a.all isDigitCh &&
      rest.all (fun p => decide (p.length = 2) && p.all isDigitCh)

/-- isValidVersion of extractor.go: empty strings are invalid, otherwise the
four validity patterns are tried in order. -/
def isValidVersion (version : GoStr) : Bool :=
  if version.isEmpty then false
  else semverMatch version || pythonStyleMatch version ||
       simpleMatch version || dateMatch version

/-! ## cleanVersion (extractor.go) -/

/-- The prefix list of cleanVersion, in source order. -/
def cleanPrefixes : List GoStr := [gs "version=", gs "Version=", gs "VERSION=", gs "v", gs "V"]

/-- The prefix-stripping loop of cleanVersion: the first matching prefix is
removed, then the loop breaks. -/
def stripCleanPre (v : GoStr) : GoStr :=
  match cleanPrefixes.find? (fun p => goStartsWith v p) with
  | some p => v.drop p.length
  | none => v

/-- cleanVersion of extractor.go: trim space, trim surrounding quotes, strip
the first matching version prefix, trim trailing semicolons and commas,
trim space again. -/
def cleanVersion (version : GoStr) : GoStr :=
  let v1 := goTrimSpace version
  let v2 := goTrimCut isQuoteChar v1
  let v3 := stripCleanPre v2
  let v4 := goTrimRightIf (fun c => c = ';' || c = ',') v3
  goTrimSpace v4

/-! ## Git tag cleaning and validation (git.go) -/

/-- The case-insensitive prefix list of cleanVersionFromTag, in source order. -/
def tagPrefixes : List GoStr :=
  [gs "release-", gs "rel-", gs "release/", gs "rel/", gs "version-", gs "ver-", gs "v-"]

/-- cleanVersionFromTag of git.go: trim space, strip a leading v then a
leading V, strip the first case-insensitively matching release prefix,
trim space again. -/
def cleanVersionFromTag (tag : GoStr) : GoStr :=
  let v0 := goTrimSpace tag
  let v1 := goTrimPre v0 (gs "v")
  let v2 := goTrimPre v1 (gs "V")
  let v3 :=
    match tagPrefixes.find? (fun p => goStartsWith (goToLower v2) (goToLower p)) with
    | some p => v2.drop p.length
    | none => v2
  goTrimSpace v3

/-- Consume [0-9]+ then a literal dot; none when the input does not start
this way. -/
def numThenDot (s : GoStr) : Option GoStr :=
  if (s.takeWhile isDigitCh).isEmpty then none
  else
    match s.dropWhile isDigitCh with
    | '.' :: r => some r
    | _ => none

/-- Consume [0-9]+; none when the input does not start with a digit. -/
def numThen (s : GoStr) : Option GoStr :=
  if (s.takeWhile isDigitCh).isEmpty then none else some (s.dropWhile isDigitCh)

/-- The character class [0-9A-Za-z\-\.] of the git metadata suffixes. -/
def isMetaChar (c : Char) : Bool := isDigitCh c || isAlphaCh c || c = '-' || c = '.'

/-- The optional (?:[-+][0-9A-Za-z\-\.]+)? tail of the git version patterns. -/
def gitMetaOk (r : GoStr) : Bool :=
  match r with
  | [] => true
  | c :: rest => (c = '-' || c = '+') && !rest.isEmpty && rest.all isMetaChar

/-- `semanticVersionPattern` of git.go: x.y.z with optional metadata suffix. -/
def gitSemanticMatch (s : GoStr) : Bool :=
  match numThenDot s with
  | some r1 =>
    (match numThenDot r1 with
     | some r2 =>
       (match numThen r2 with
        | some r3 => gitMetaOk r3
        | none => false)
     | none => false)
  | none => false

/-- `simpleVersionPattern` of git.go: x.y with optional third component and
optional metadata suffix. -/
def gitSimpleMatch (s : GoStr) : Bool :=
  match numThenDot s with
  | some r1 =>
    (match numThen r1 with
     | some r2 =>
       (match r2 with
        | [] => true
        | '.' :: r3 =>
          (match numThen r3 with
           | some r4 => gitMetaOk r4
           | none => false)
        | _ => gitMetaOk r2)
     | none => false)
  | none => false

/-- `dateVersionPattern` of git.go: YYYY.MM with optional .DD. -/
def gitDateMatch (s : GoStr) : Bool :=
  match s.splitOn '.' with
  | [a, b] => decide (a.length = 4) && a.all isDigitCh && decide (b.length = 2) && b.all isDigitCh
  | [a, b, c] => decide (a.length = 4) && a.all isDigitCh && decide (b.length = 2) &&
      b.all isDigitCh && decide (c.length = 2) && c.all isDigitCh
  | _ => false

/-- Parse the leading x.y or x.y.z numeric core shared by the git SNAPSHOT,
beta, alpha and rc patterns, returning the remaining input.  The two-component
reading is only taken when the three-component reading is impossible, which
matches the regex because the tail after the optional third component never
starts with a dot or digit. -/
def gitNumCore (s : GoStr) : Option GoStr :=
  match numThenDot s with
  | some r1 =>
    (match numThen r1 with
     | some r2 =>
       (match r2 with
        | '.' :: r3 =>
          (match numThen r3 with
           | some r4 => some r4
           | none => none)
        | _ => some r2)
     | none => none)
  | none => none

/-- `snapshotVersionPattern` of git.go: numeric core followed by -SNAPSHOT. -/
def gitSnapshotMatch (s : GoStr) : Bool :=
  match gitNumCore s with
  | some r => r = gs "-SNAPSHOT"
  | none => false

/-- Shared shape of the git beta, alpha and rc patterns: numeric core,
a literal dashed word and a dot, then one or more digits. -/
def gitDashNumMatch (word : GoStr) (s : GoStr) : Bool :=
  match gitNumCore s with
  | some r =>
    if goStartsWith r word then
      let d := r.drop word.length
      !d.isEmpty && d.all isDigitCh
    else false
  | none => false

/-- isValidVersionTag of git.go: the seven pre-compiled git patterns tried in
order (all seven compile, so the fallback pattern is never installed). -/
def isValidVersionTag (version : GoStr) : Bool :=
  if version.isEmpty then false
  else gitSemanticMatch version || gitSimpleMatch version || gitDateMatch version ||
       gitSnapshotMatch version || gitDashNumMatch (gs "-beta.") version ||
       gitDashNumMatch (gs "-alpha.") version || gitDashNumMatch (gs "-rc.") version

/-! ## pyproject.toml section-aware scanning (extractFromPyprojectToml)

The version-line regular expression
`^version\s*=\s*["']([^"']+)["']` is concrete and deterministic: the
capture group is a maximal run of non-quote characters, the closing
bracket class accepts either quote character, and `\s` is the regex
whitespace class [\t\n\f\r ]. -/

/-- The regex whitespace class \s of Go regular expressions. -/
def isRegexSpace (c : Char) : Bool :=
  c = '\t' || c = '\n' || c = Char.ofNat 12 || c = '\r' || c = ' '

/-- Apply the anchored regex `^version\s*=\s*["']([^"']+)["']` to a line and
return the capture group when the line matches. -/
def versionLineCapture (t : GoStr) : Option GoStr :=
  if goStartsWith t (gs "version") then
    let r1 := (t.drop (gs "version").length).dropWhile isRegexSpace
    match r1 with
    | '=' :: r3 =>
      (match r3.dropWhile isRegexSpace with
       | c :: r5 =>
         if isQuoteChar c then
           let cap := r5.takeWhile (fun d => !isQuoteChar d)
           (match r5.dropWhile (fun d => !isQuoteChar d) with
            | d :: _ => if isQuoteChar d && !cap.isEmpty then some cap else none
            | [] => none)
         else none
       | [] => none)
    | _ => none
  else none

/-- The per-line loop of extractFromPyprojectToml over the already split
lines, carrying the inProjectSection flag.  Section headers update the flag
(true exactly for the header line `[project]` after trimming) and are
otherwise skipped; inside the section, non-comment lines that match the
version regex with a valid, non-empty capture end the scan. -/
def pyprojectScanLoop (inProj : Bool) : List GoStr → Option GoStr
  | [] => none
  | line :: rest =>
    let t := goTrimSpace line
    if goStartsWith t (gs "[") then
      pyprojectScanLoop (t = gs "[project]") rest
    else if inProj && !(goStartsWith t (gs "#")) then
      match versionLineCapture t with
      | some v =>
        if !v.isEmpty && isValidVersion v then some v else pyprojectScanLoop inProj rest
      | none => pyprojectScanLoop inProj rest
    else pyprojectScanLoop inProj rest

/-- The inProjectSection flag after processing a prefix of the lines:
a left fold of the header transitions of pyprojectScanLoop. -/
def sectionStateAfter (inProj : Bool) (lines : List GoStr) : Bool :=
  lines.foldl
    (fun s line =>
      let t := goTrimSpace line
      if goStartsWith t (gs "[") then t = gs "[project]" else s)
    inProj

/-- What it means for the scan to accept a single line in a given section
state: the state is inside [project], the line is neither a header nor a
comment, and the version regex captures a non-empty valid version. -/
def acceptsVersionLine (inProj : Bool) (line : GoStr) (v : GoStr) : Prop :=
  inProj = true ∧
  goStartsWith (goTrimSpace line) (gs "[") = false ∧
  goStartsWith (goTrimSpace line) (gs "#") = false ∧
  versionLineCapture (goTrimSpace line) = some v ∧
  v.isEmpty = false ∧ isValidVersion v = true

/-! ## Data model (config.go, extractor.go, git.go) -/

/-- DynamicVersionIndicator of config.go. -/
structure DynamicVersionIndicator where
  Path : GoStr
  Field : GoStr
  Contains : List GoStr
  Exists : Bool
deriving DecidableEq

/-- ProjectConfig of config.go.  The Go field `Type` is rendered `Ptype`
because `Type` is reserved in Lean. -/
structure ProjectConfig where
  Ptype : GoStr
  Subtype : GoStr
  File : GoStr
  Regex : List GoStr
  Samples : List GoStr
  Priority : Int
  SupportsDynamicVersioning : Bool
  DynamicVersionIndicators : List DynamicVersionIndicator
deriving DecidableEq

/-- Config of config.go: the ordered (priority-ascending, sorted by the
loader) list of project descriptors. -/
structure Config where
  Projects : List ProjectConfig
deriving DecidableEq

/-- ExtractResult of extractor.go. -/
structure ExtractResult where
  Version : GoStr := []
  ProjectType : GoStr := []
  Subtype : GoStr := []
  File : GoStr := []
  MatchedBy : GoStr := []
  Success : Bool := false
  VersionSource : GoStr := []
  GitTag : GoStr := []
deriving DecidableEq

/-- GitTagResult of git.go. -/
structure GitTagResult where
  Version : GoStr := []
  Tag : GoStr := []
  Success : Bool := false
  IsGitRepo : Bool := false
deriving DecidableEq

/-- VersionExtractor of extractor.go. -/
structure VersionExtractor where
  config : Config
  dynamicFallback : Bool
  skipDirectories : List GoStr
deriving DecidableEq

/-! ## File reading (file_reader.go) -/

/-- Maximum file size the extractor processes (10 MiB), from extractor.go. -/
def maxFileSizeLimit : Nat := 10 * 1024 * 1024

/-- Maximum number of version files checked in the pyproject fallback,
from extractor.go. -/
def maxVersionFilesToCheck : Nat := 10

/-- The failure modes of the file reader. -/
inductive FileError where
  | statFailed
  | fileTooLarge
  | readFailed
deriving DecidableEq

/-- ValidateFileSize of file_reader.go over an abstract file-size oracle
(`stat` returns the size, or none when stat fails): stat failure is an
error, a size strictly above the limit is a FileTooLarge error, anything
else passes. -/
def ValidateFileSize (stat : GoStr → Option Nat) (filePath : GoStr) : Option FileError :=
  match stat filePath with
  | none => some FileError.statFailed
  | some size => if size > maxFileSizeLimit then some FileError.fileTooLarge else none

/-- The two sequential line-ending replacements of ReadFileContent
(CRLF to LF, then CR to LF), fused into one left-to-right pass. -/
def normalizeNewlines : GoStr → GoStr
  | [] => []
  | '\r' :: '\n' :: rest => '\n' :: normalizeNewlines rest
  | '\r' :: rest => '\n' :: normalizeNewlines rest
  | c :: rest => c :: normalizeNewlines rest

/-- ReadFileContent of file_reader.go over abstract stat and read oracles:
the size is validated before the content oracle is consulted. -/
def ReadFileContent (stat : GoStr → Option Nat) (readF : GoStr → Option GoStr)
    (filePath : GoStr) (normalizeContent : Bool) : Except FileError GoStr :=
  match ValidateFileSize stat filePath with
  | some e => Except.error e
  | none =>
    match readF filePath with
    | none => Except.error FileError.readFailed
    | some content => Except.ok (if normalizeContent then normalizeNewlines content else content)

/-! ## Path helpers (filepath.Base, filepath.Dir, filepath.Join)

Modelled without the final Clean pass of the Go library; the inputs the
claims exercise contain no redundant separators, where the two agree. -/

/-- filepath.Base: empty path gives dot, a path of separators gives the
separator, otherwise the part after the last separator (trailing
separators removed first). -/
def goBase (p : GoStr) : GoStr :=
  if p.isEmpty then gs "."
  else
    let q := goTrimRightIf (fun c => c = '/') p
    if q.isEmpty then gs "/"
    else (q.reverse.takeWhile (fun c => c != '/')).reverse

/-- filepath.Dir: everything before the final element. -/
def goDir (p : GoStr) : GoStr :=
  let r := goTrimRightIf (fun c => c != '/') p
  let q := goTrimRightIf (fun c => c = '/') r
  if q.isEmpty then (if r.isEmpty then gs "." else gs "/") else q

/-- filepath.Join of two components. -/
def goJoin (a b : GoStr) : GoStr := if a.isEmpty then b else a ++ '/' :: b

/-! ## The extraction environment

The file system, the generic regex matcher, the per-indicator dynamic
versioning rules and the git subprocess are external effects; they enter the
model as oracles.  `extractWithPatterns` stands for
extractVersionWithPatterns of extractor.go (general regex application over
arbitrary configured patterns, outside what a shallow embedding can run);
`indMatch` stands for the structural pattern families applied to one
indicator against the file content; `git` is the outcome of tryGitFallback
(which in Go never returns a nil pointer, only a result whose Success flag
may be false). -/

structure Env where
  stat : GoStr → Option Nat
  fsRead : GoStr → Option GoStr
  glob : GoStr → List GoStr
  findFiles : GoStr → Except GoStr (List GoStr)
  extractWithPatterns : GoStr → List GoStr → Except GoStr (GoStr × GoStr)
  indMatch : GoStr → DynamicVersionIndicator → Except GoStr Bool
  git : GitTagResult
  globMatch : GoStr → GoStr → Bool

/-- Rendering of file reader failures as error strings, as fmt.Errorf does. -/
def fileErrMsg : FileError → GoStr
  | FileError.statFailed => gs "failed to stat file"
  | FileError.fileTooLarge => gs "file size exceeds limit of 10MB"
  | FileError.readFailed => gs "failed to read file"

/-- fileReader.ReadFileContent as used by the extractor. -/
def envRead (env : Env) (p : GoStr) (normalize : Bool) : Except GoStr GoStr :=
  match ReadFileContent env.stat env.fsRead p normalize with
  | Except.error e => Except.error (fileErrMsg e)
  | Except.ok c => Except.ok c

/-- The literal generic pattern applied to candidate version files in the
pyproject fallback (its text only serves as a key to the matcher oracle). -/
def versionPyPattern : GoStr :=
  gs "__version__\\s*=\\s*[\"" ++ [squote] ++ gs "]([^\"" ++ [squote] ++ gs "]+)[\"" ++ [squote] ++ gs "]"

/-- The capped loop over candidate version files of extractFromPyprojectToml.
The Go source iterates glob batches in an outer loop with a shared counter
and a break in both loops once the cap is reached; over the concatenation of
the batches this is exactly one loop guarded by the counter. -/
def tryVersionFiles (env : Env) : List GoStr → Nat → Option (GoStr × GoStr)
  | [], _ => none
  | f :: rest, filesChecked =>
    if maxVersionFilesToCheck ≤ filesChecked then none
    else
      match env.extractWithPatterns f [versionPyPattern] with
      | Except.ok (version, _) =>
        if !version.isEmpty then some (version, gs "__version__.py")
        else tryVersionFiles env rest (filesChecked + 1)
      | Except.error _ => tryVersionFiles env rest (filesChecked + 1)

/-- extractFromPyprojectToml of extractor.go: section-aware scan of the file
content, then the capped fallback search over candidate version files. -/
def extractFromPyprojectToml (env : Env) (filePath : GoStr) : Except GoStr (GoStr × GoStr) :=
  match envRead env filePath false with
  | Except.error e => Except.error e
  | Except.ok fileContent =>
    match pyprojectScanLoop false (splitLines fileContent) with
    | some version => Except.ok (version, gs "[project] section version")
    | none =>
      let projectDir := goDir filePath
      let candidates :=
        env.glob (goJoin projectDir (gs "__version__.py")) ++
        env.glob (goJoin projectDir (goJoin (gs "src") (goJoin (gs "*") (gs "__version__.py")))) ++
        env.glob (goJoin projectDir (goJoin (gs "*") (gs "__version__.py")))
      match tryVersionFiles env candidates 0 with
      | some hit => Except.ok hit
      | none => Except.ok ([], [])

/-- extractVersionFromFile of extractor.go: the section-aware handler is
authoritative for paths ending in pyproject.toml, every other path goes to
the generic pattern matcher. -/
def extractVersionFromFile (env : Env) (filePath : GoStr) (patterns : List GoStr) :
    Except GoStr (GoStr × GoStr) :=
  if goEndsWith filePath (gs "pyproject.toml") then extractFromPyprojectToml env filePath
  else env.extractWithPatterns filePath patterns

/-- The indicator loop of detectDynamicVersioning: indicators are tried in
order, the first rule error aborts, the first match wins, exhaustion gives
false. -/
def detectLoop (m : DynamicVersionIndicator → Except GoStr Bool) :
    List DynamicVersionIndicator → Except GoStr Bool
  | [] => Except.ok false
  | i :: rest =>
    match m i with
    | Except.error e => Except.error e
    | Except.ok true => Except.ok true
    | Except.ok false => detectLoop m rest

/-- detectDynamicVersioning of extractor.go: read the whole (normalized)
file content, then run the indicator rules. -/
def detectDynamicVersioning (env : Env) (filePath : GoStr)
    (indicators : List DynamicVersionIndicator) : Except GoStr Bool :=
  match envRead env filePath true with
  | Except.error e => Except.error e
  | Except.ok fileContent => detectLoop (env.indMatch fileContent) indicators

/-- The result built on the git fallback path for empty-pattern descriptors. -/
def gitFallbackResult (project : ProjectConfig) (file : GoStr) (g : GitTagResult) : ExtractResult :=
  { Version := g.Version, ProjectType := project.Ptype, Subtype := project.Subtype,
    File := file, MatchedBy := gs "git-fallback", Success := true,
    VersionSource := gs "dynamic-git-tag", GitTag := g.Tag }

/-- The result built when dynamic versioning is detected for a file. -/
def dynamicTagResult (project : ProjectConfig) (file : GoStr) (g : GitTagResult) : ExtractResult :=
  { Version := g.Version, ProjectType := project.Ptype, Subtype := project.Subtype,
    File := file, MatchedBy := gs "dynamic-git-tag", Success := true,
    VersionSource := gs "dynamic-git-tag", GitTag := g.Tag }

/-- The result built for a static pattern match. -/
def staticResult (project : ProjectConfig) (file : GoStr) (version matchedRegex : GoStr) :
    ExtractResult :=
  { Version := version, ProjectType := project.Ptype, Subtype := project.Subtype,
    File := file, MatchedBy := matchedRegex, Success := true,
    VersionSource := gs "static" }

/-- The dynamic-versioning check performed for one candidate file inside the
loop of tryExtractFromProject: when dynamic fallback is enabled, the
descriptor supports it and has indicators, and the detector signals true,
a successful git fallback yields the dynamic result. -/
def dynamicAttempt (env : Env) (e : VersionExtractor) (project : ProjectConfig)
    (file : GoStr) : Option ExtractResult :=
  if e.dynamicFallback && project.SupportsDynamicVersioning &&
      !project.DynamicVersionIndicators.isEmpty then
    match detectDynamicVersioning env file project.DynamicVersionIndicators with
    | Except.ok true =>
      if env.git.Success then some (dynamicTagResult project file env.git) else none
    | _ => none
  else none

/-- The per-candidate-file loop of tryExtractFromProject: matcher errors skip
the file, a detected dynamic signal with a successful git fallback returns
the dynamic result, otherwise a non-empty matched version returns the static
result, otherwise the next file is tried. -/
def tryFiles (env : Env) (e : VersionExtractor) (project : ProjectConfig) :
    List GoStr → Except GoStr ExtractResult
  | [] => Except.ok {}
  | file :: rest =>
    match extractVersionFromFile env file project.Regex with
    | Except.error _ => tryFiles env e project rest
    | Except.ok (version, matchedRegex) =>
      match dynamicAttempt env e project file with
      | some r => Except.ok r
      | none =>
        if !version.isEmpty then Except.ok (staticResult project file version matchedRegex)
        else tryFiles env e project rest

/-- tryExtractFromProject of extractor.go. -/
def tryExtractFromProject (env : Env) (e : VersionExtractor) (project : ProjectConfig) :
    Except GoStr ExtractResult :=
  if project.Regex.isEmpty then
    if !e.dynamicFallback || !project.SupportsDynamicVersioning then Except.ok {}
    else
      match env.findFiles project.File with
      | Except.error _ => Except.ok {}
      | Except.ok [] => Except.ok {}
      | Except.ok (f :: _) =>
        if env.git.Success then Except.ok (gitFallbackResult project f env.git)
        else Except.ok {}
  else
    match env.findFiles project.File with
    | Except.error msg => Except.error (gs "failed to find project files: " ++ msg)
    | Except.ok files =>
      if files.isEmpty then Except.ok {} else tryFiles env e project files

/-- Whether one descriptor attempt produced a successful result (the
condition under which extractFromDirectory stops and returns). -/
def isProduced : Except GoStr ExtractResult → Bool
  | Except.ok r => r.Success
  | Except.error _ => false

/-- The descriptor loop of extractFromDirectory: errors are logged and
skipped, the first successful result is returned. -/
def extractLoop (env : Env) (e : VersionExtractor) :
    List ProjectConfig → Except GoStr ExtractResult
  | [] => Except.error (gs "no version found in any supported project files")
  | project :: rest =>
    match tryExtractFromProject env e project with
    | Except.error _ => extractLoop env e rest
    | Except.ok result =>
      if result.Success then Except.ok result else extractLoop env e rest

/-- extractFromDirectory of extractor.go. -/
def extractFromDirectory (env : Env) (e : VersionExtractor) : Except GoStr ExtractResult :=
  extractLoop env e e.config.Projects

/-- fileMatchesPattern of extractor.go: glob patterns go to filepath.Match
(an oracle here), plain names are compared for equality. -/
def fileMatchesPattern (env : Env) (fileName pat : GoStr) : Bool :=
  if pat.contains '*' then env.globMatch pat fileName else fileName = pat

/-- extractFromSpecificFile of extractor.go: the first descriptor whose file
pattern matches the base name handles the file; the successful result sets
no version source (the Go struct field keeps its zero value).  The second
component is the returned error, if any. -/
def extractFromSpecificFile (env : Env) (e : VersionExtractor) (filePath : GoStr) :
    ExtractResult × Option GoStr :=
  let fileName := goBase filePath
  match e.config.Projects.find? (fun project => fileMatchesPattern env fileName project.File) with
  | none => ({}, some (gs "file is of an unsupported type"))
  | some matchingProject =>
    match extractVersionFromFile env filePath matchingProject.Regex with
    | Except.error msg => ({}, some (gs "error processing file: " ++ msg))
    | Except.ok (version, matchedRegex) =>
      if !version.isEmpty then
        ({ Version := version, ProjectType := matchingProject.Ptype,
           Subtype := matchingProject.Subtype, File := filePath,
           MatchedBy := matchedRegex, Success := true }, none)
      else ({}, some (gs "no valid version found in file"))

/-- Extract of extractor.go: a file path goes to single-file extraction, a
directory to the descriptor iteration.  `isDir` is the os.Stat answer. -/
def Extract (env : Env) (e : VersionExtractor) (isDir : Bool) (path : GoStr) :
    Except GoStr ExtractResult :=
  if isDir then extractFromDirectory env e
  else
    match extractFromSpecificFile env e path with
    | (r, none) => Except.ok r
    | (_, some msg) => Except.error msg

/-! ## Git tag resolution (git.go)

The git subprocess outputs are oracles: `describeOut pat` is the standard
output of git describe with the given match pattern (the empty pattern
meaning no restriction), `tagListOut` the output of the sorted tag list. -/

structure GitEnv where
  describeOut : GoStr → Except GoStr GoStr
  tagListOut : Except GoStr GoStr

/-- getTagWithDescribe of git.go: trim the output, reject an empty tag,
otherwise return the cleaned version together with the original tag. -/
def getTagWithDescribe (genv : GitEnv) (matchPattern : GoStr) : Except GoStr (GoStr × GoStr) :=
  match genv.describeOut matchPattern with
  | Except.error e => Except.error e
  | Except.ok output =>
    let tag := goTrimSpace output
    if tag.isEmpty then Except.error (gs "empty tag output")
    else Except.ok (cleanVersionFromTag tag, tag)

/-- The tag-list loop of getTagWithList: the first tag whose cleaned form
passes validity checking wins. -/
def firstValidTag : List GoStr → Except GoStr (GoStr × GoStr)
  | [] => Except.error (gs "no valid version tags found")
  | t :: rest =>
    let tag := goTrimSpace t
    if tag.isEmpty then firstValidTag rest
    else
      let version := cleanVersionFromTag tag
      if isValidVersionTag version then Except.ok (version, tag) else firstValidTag rest

/-- The emptiness guard of getTagWithList on the split tag lines. -/
def tagLinesCase : List GoStr → Except GoStr (GoStr × GoStr)
  | [] => Except.error (gs "no tags found")
  | first :: rest =>
    if first.isEmpty then Except.error (gs "no tags found")
    else firstValidTag (first :: rest)

/-- getTagWithList of git.go. -/
def getTagWithList (genv : GitEnv) : Except GoStr (GoStr × GoStr) :=
  match genv.tagListOut with
  | Except.error e => Except.error e
  | Except.ok output => tagLinesCase (splitLines (goTrimSpace output))

/-- The per-strategy acceptance test of tryGetLatestTag: no error and a
non-empty version. -/
def describeHit (genv : GitEnv) (pat : GoStr) : Option (GoStr × GoStr) :=
  match getTagWithDescribe genv pat with
  | Except.ok (v, t) => if !v.isEmpty then some (v, t) else none
  | Except.error _ => none

/-- tryGetLatestTag of git.go: the four describe strategies in order, then
the sorted tag list. -/
def tryGetLatestTag (genv : GitEnv) : Except GoStr (GoStr × GoStr) :=
  match describeHit genv (gs "v*") with
  | some r => Except.ok r
  | none =>
  match describeHit genv (gs "*.*.*") with
  | some r => Except.ok r
  | none =>
  match describeHit genv (gs "release-*") with
  | some r => Except.ok r
  | none =>
  match describeHit genv [] with
  | some r => Except.ok r
  | none =>
    match getTagWithList genv with
    | Except.ok (v, t) =>
      if !v.isEmpty then Except.ok (v, t)
      else Except.error (gs "no tags found with any strategy")
    | Except.error _ => Except.error (gs "no tags found with any strategy")

/-! ## Amendment predicates and concrete instances used in the theorems below -/

/-- Amendment condition: the cleaned form does not begin with a character
that a second cleaning pass could strip from the front. -/
def noLeadingStrip (y : GoStr) : Bool :=
  match y with
  | [] => true
  | c :: _ => !isQuoteChar c && c != 'v' && c != 'V'

/-- Amendment condition: the cleaned form does not end with a character
that a second cleaning pass could strip from the back. -/
def noTrailingStrip (y : GoStr) : Bool :=
  match y.getLast? with
  | none => true
  | some c => !isQuoteChar c && c != ';' && c != ','

/-- A git environment where only the unrestricted describe strategy (number
four) finds a tag, and that tag is the non-version string latest. -/
def genvLatest : GitEnv :=
  { describeOut := fun pat =>
      if pat.isEmpty then Except.ok (gs "latest\n") else Except.error (gs "no matching tags"),
    tagListOut := Except.error (gs "no tags") }

/-- A git environment with no describe output and a sorted tag list whose
first entry is not version-shaped. -/
def genvList : GitEnv :=
  { describeOut := fun _ => Except.error (gs "no names found"),
    tagListOut := Except.ok (gs "foo\n1.2.3") }

/-- A descriptor whose configured file never appears in the searched tree. -/
def projA : ProjectConfig :=
  { Ptype := gs "javascript", Subtype := gs "npm", File := gs "package.json",
    Regex := [gs "pjs"], Samples := [gs "s"], Priority := 1,
    SupportsDynamicVersioning := false, DynamicVersionIndicators := [] }

/-- A descriptor that produces a static result in the concrete environment. -/
def projB : ProjectConfig :=
  { Ptype := gs "rust", Subtype := gs "cargo", File := gs "Cargo.toml",
    Regex := [gs "pcg"], Samples := [gs "s"], Priority := 2,
    SupportsDynamicVersioning := false, DynamicVersionIndicators := [] }

/-- A lower-priority descriptor that would also produce a result. -/
def projC : ProjectConfig :=
  { Ptype := gs "maven", Subtype := gs "pom", File := gs "Cargo.toml",
    Regex := [gs "pcg"], Samples := [gs "s"], Priority := 3,
    SupportsDynamicVersioning := false, DynamicVersionIndicators := [] }

/-- A concrete environment in which projA finds no file while projB and
projC both would match Cargo.toml. -/
def envC1 : Env :=
  { stat := fun _ => some 1, fsRead := fun _ => none, glob := fun _ => [],
    findFiles := fun pat => if pat = gs "Cargo.toml" then Except.ok [gs "Cargo.toml"] else Except.ok [],
    extractWithPatterns := fun _ _ => Except.ok (gs "1.2.3", gs "pcg"),
    indMatch := fun _ _ => Except.ok false, git := {}, globMatch := fun _ _ => false }

/-- The extractor instance used by the concrete C1 scenario. -/
def eC1 : VersionExtractor :=
  { config := { Projects := [projA, projB, projC] }, dynamicFallback := true,
    skipDirectories := [] }

/-- The descriptor of the concrete dynamic-versioning scenario. -/
def projD : ProjectConfig :=
  { Ptype := gs "javascript", Subtype := gs "npm", File := gs "package.json",
    Regex := [gs "pjs"], Samples := [gs "s"], Priority := 1,
    SupportsDynamicVersioning := true,
    DynamicVersionIndicators :=
      [{ Path := [], Field := gs "version", Contains := [gs "0.0.0-development"],
         Exists := false }] }

/-- A concrete environment in which the detector fires and the git resolver
succeeds with tag v2.1.4. -/
def envC2 : Env :=
  { stat := fun _ => some 5, fsRead := fun _ => some (gs "content"),
    glob := fun _ => [],
    findFiles := fun _ => Except.ok [gs "package.json"],
    extractWithPatterns := fun _ _ => Except.ok (gs "0.0.0-development", gs "pjs"),
    indMatch := fun _ _ => Except.ok true,
    git := { Version := gs "2.1.4", Tag := gs "v2.1.4", Success := true, IsGitRepo := true },
    globMatch := fun _ _ => false }

/-- The extractor instance of the concrete C2 scenario. -/
def eC2 : VersionExtractor :=
  { config := { Projects := [projD] }, dynamicFallback := true, skipDirectories := [] }

/-- A concrete environment whose generic matcher answers 9.9.9 while the
file content carries 1.2.3 in its [project] section. -/
def env5 : Env :=
  { stat := fun _ => some 3,
    fsRead := fun p =>
      if p = gs "foo-pyproject.toml" then some (gs "[project]\nversion = \"1.2.3\"")
      else if p = gs "a/pyproject.toml" then some (gs "[project]\nversion = \"1.2.3\"")
      else none,
    glob := fun _ => [], findFiles := fun _ => Except.ok [],
    extractWithPatterns := fun _ _ => Except.ok (gs "9.9.9", gs "pat"),
    indMatch := fun _ _ => Except.ok false, git := {}, globMatch := fun _ _ => false }

/-- The descriptor of the concrete single-file scenario. -/
def proj8 : ProjectConfig :=
  { Ptype := gs "javascript", Subtype := gs "npm", File := gs "package.json",
    Regex := [gs "pjs"], Samples := [gs "s"], Priority := 1,
    SupportsDynamicVersioning := false, DynamicVersionIndicators := [] }

/-- A concrete environment in which the single-file extraction succeeds. -/
def env8 : Env :=
  { stat := fun _ => some 1, fsRead := fun _ => none, glob := fun _ => [],
    findFiles := fun _ => Except.ok [],
    extractWithPatterns := fun _ _ => Except.ok (gs "1.2.3", gs "pjs"),
    indMatch := fun _ _ => Except.ok false, git := {}, globMatch := fun _ _ => false }

/-- The extractor instance of the concrete single-file scenario. -/
def e8 : VersionExtractor :=
  { config := { Projects := [proj8] }, dynamicFallback := true, skipDirectories := [] }

/-- Fifteen qualifying version files produced by the first glob pattern. -/
def vfiles15 : List GoStr := (List.range 15).map (fun i => gs "proj/f" ++ [Char.ofNat (65 + i)])

/-- A concrete environment with fifteen candidate version files where only
the eleventh (proj/fK) would yield a version. -/
def env9 : Env :=
  { stat := fun _ => some 1,
    fsRead := fun p =>
      if p = gs "proj/pyproject.toml" then some (gs "[tool]\nx = \"1\"") else none,
    glob := fun pat => if pat = gs "proj/__version__.py" then vfiles15 else [],
    findFiles := fun _ => Except.ok [],
    extractWithPatterns := fun f _ =>
      if f = gs "proj/f" ++ [Char.ofNat 75] then Except.ok (gs "9.9.9", versionPyPattern)
      else Except.ok ([], versionPyPattern),
    indMatch := fun _ _ => Except.ok false, git := {}, globMatch := fun _ _ => false }

/-- The same environment except that the tenth candidate (proj/fJ) yields a
version. -/
def env9b : Env :=
  { env9 with
    extractWithPatterns := fun f _ =>
      if f = gs "proj/f" ++ [Char.ofNat 74] then Except.ok (gs "5.5.5", versionPyPattern)
      else Except.ok ([], versionPyPattern) }

/-! ## Helper lemmas about the trimming primitives -/

theorem dropWhile_idem (p : Char → Bool) (l : GoStr) :
    (l.dropWhile p).dropWhile p = l.dropWhile p := by
  induction l with
  | nil => rfl
  | cons a t ih =>
    by_cases h : p a
    · simp [List.dropWhile_cons, h, ih]
    · simp [List.dropWhile_cons, h]

theorem dropWhile_head_false (p : Char → Bool) (l : GoStr) (c : Char) (t : GoStr)
    (h : l.dropWhile p = c :: t) : p c = false := by
  induction l with
  | nil => simp [List.dropWhile] at h
  | cons a s ih =>
    by_cases ha : p a
    · exact ih (by simpa [List.dropWhile_cons, ha] using h)
    · rw [List.dropWhile_cons, if_neg (by simpa using ha)] at h
      cases h
      simpa using ha

theorem trimLeft_fix (p : Char → Bool) (z : GoStr)
    (h : ∀ c t, z = c :: t → p c = false) : goTrimLeftIf p z = z := by
  cases z with
  | nil => rfl
  | cons c t =>
    unfold goTrimLeftIf
    rw [List.dropWhile_cons, if_neg]
    simp [h c t rfl]

theorem goTrimLeftIf_eq (p : Char → Bool) (l : GoStr) : goTrimLeftIf p l = l.dropWhile p := rfl

theorem trimRight_fix (p : Char → Bool) (z : GoStr)
    (h : ∀ c t, z.reverse = c :: t → p c = false) : goTrimRightIf p z = z := by
  unfold goTrimRightIf
  have hfix := trimLeft_fix p z.reverse h
  rw [goTrimLeftIf_eq] at hfix
  rw [hfix, List.reverse_reverse]

theorem trimRight_idem (p : Char → Bool) (l : GoStr) :
    goTrimRightIf p (goTrimRightIf p l) = goTrimRightIf p l := by
  unfold goTrimRightIf
  rw [List.reverse_reverse, dropWhile_idem]

theorem trimRight_prefix (p : Char → Bool) (l : GoStr) : goTrimRightIf p l <+: l := by
  have h : List.dropWhile p l.reverse <:+ l.reverse := List.dropWhile_suffix p
  have h2 := List.reverse_prefix.mpr h
  rw [List.reverse_reverse] at h2
  exact h2

theorem goTrimSpace_idem (l : GoStr) : goTrimSpace (goTrimSpace l) = goTrimSpace l := by
  unfold goTrimSpace
  set z := goTrimLeftIf isGoSpace l with hz
  have hzfix : List.dropWhile isGoSpace z = z := by
    rw [hz, goTrimLeftIf_eq]
    exact dropWhile_idem isGoSpace l
  have hstep : goTrimLeftIf isGoSpace (goTrimRightIf isGoSpace z) = goTrimRightIf isGoSpace z := by
    apply trimLeft_fix
    intro c t hct
    obtain ⟨u, hu⟩ := trimRight_prefix isGoSpace z
    rw [hct] at hu
    have hzc : List.dropWhile isGoSpace z = c :: (t ++ u) := by
      rw [hzfix]
      simpa using hu.symm
    exact dropWhile_head_false isGoSpace z c (t ++ u) hzc
  rw [hstep, trimRight_idem]

theorem startsWith_cons_false (a : Char) (rest : GoStr) (c : Char) (t : GoStr)
    (h : c ≠ a) : goStartsWith (c :: t) (a :: rest) = false := by
  show ((a == c) && rest.isPrefixOf t) = false
  rw [beq_eq_false_iff_ne.mpr (fun hh => h hh.symm)]
  rfl

/-! ## Claim C4: idempotence of cleanVersion -/

theorem cleanVersion_fix (y : GoStr)
    (htrim : goTrimSpace y = y)
    (hhead : noLeadingStrip y = true)
    (hlast : noTrailingStrip y = true) : cleanVersion y = y := by
  have hheadP : ∀ c t, y = c :: t → (isQuoteChar c = false ∧ c ≠ 'v' ∧ c ≠ 'V') := by
    intro c t hct
    rw [hct] at hhead
    unfold noLeadingStrip at hhead
    simp only [Bool.and_eq_true, Bool.not_eq_true', bne_iff_ne, ne_eq] at hhead
    exact ⟨hhead.1.1, hhead.1.2, hhead.2⟩
  have hlastP : ∀ c t, y.reverse = c :: t → (isQuoteChar c = false ∧ c ≠ ';' ∧ c ≠ ',') := by
    intro c t hct
    unfold noTrailingStrip at hlast
    rw [List.getLast?_eq_head?_reverse, hct] at hlast
    simp only [List.head?_cons, Bool.and_eq_true, Bool.not_eq_true', bne_iff_ne, ne_eq] at hlast
    exact ⟨hlast.1.1, hlast.1.2, hlast.2⟩
  have hquote : goTrimCut isQuoteChar y = y := by
    unfold goTrimCut
    rw [trimLeft_fix isQuoteChar y (fun c t hct => (hheadP c t hct).1)]
    exact trimRight_fix isQuoteChar y (fun c t hct => (hlastP c t hct).1)
  have hpre : stripCleanPre y = y := by
    cases y with
    | nil => rfl
    | cons c t =>
      have hc := hheadP c t rfl
      have h1 : goStartsWith (c :: t) (gs "version=") = false := by
        rw [show gs "version=" = 'v' :: gs "ersion=" from rfl]
        exact startsWith_cons_false 'v' _ c t hc.2.1
      have h2 : goStartsWith (c :: t) (gs "Version=") = false := by
        rw [show gs "Version=" = 'V' :: gs "ersion=" from rfl]
        exact startsWith_cons_false 'V' _ c t hc.2.2
      have h3 : goStartsWith (c :: t) (gs "VERSION=") = false := by
        rw [show gs "VERSION=" = 'V' :: gs "ERSION=" from rfl]
        exact startsWith_cons_false 'V' _ c t hc.2.2
      have h4 : goStartsWith (c :: t) (gs "v") = false := by
        rw [show gs "v" = 'v' :: ([] : GoStr) from rfl]
        exact startsWith_cons_false 'v' _ c t hc.2.1
      have h5 : goStartsWith (c :: t) (gs "V") = false := by
        rw [show gs "V" = 'V' :: ([] : GoStr) from rfl]
        exact startsWith_cons_false 'V' _ c t hc.2.2
      unfold stripCleanPre cleanPrefixes
      have hnone : List.find? (fun p => goStartsWith (c :: t) p)
          [gs "version=", gs "Version=", gs "VERSION=", gs "v", gs "V"] = none := by
        rw [List.find?_eq_none]
        intro x hx
        simp only [List.mem_cons, List.not_mem_nil, or_false] at hx
        rcases hx with rfl | rfl | rfl | rfl | rfl <;> simp [h1, h2, h3, h4, h5]
      rw [hnone]
  have hsemi : goTrimRightIf (fun c => c = ';' || c = ',') y = y := by
    apply trimRight_fix
    intro c t hct
    have hc := hlastP c t hct
    simp [hc.2.1, hc.2.2]
  show goTrimSpace (goTrimRightIf _ (stripCleanPre (goTrimCut isQuoteChar (goTrimSpace y)))) = y
  rw [htrim, hquote, hpre, hsemi, htrim]

/-- Claim C4 as stated is false: cleanVersion is not idempotent on the
input "vv1", whose first pass strips one v and leaves another. -/
theorem C4_counterexample :
    cleanVersion (cleanVersion (gs "vv1")) ≠ cleanVersion (gs "vv1") := by decide

/-- Claim C4 amended: cleanVersion is idempotent on every input whose
cleaned form neither begins with v, V or a quote character, nor ends with a
quote character, a semicolon or a comma: trim whitespace, strip surrounding
quotes, strip the first matching prefix among version=, Version=, VERSION=,
v, V, strip trailing semicolons and commas, trim again, applied a second
time to such a cleaned form, changes nothing. -/
theorem C4_cleanVersion_idempotent (x : GoStr)
    (hhead : noLeadingStrip (cleanVersion x) = true)
    (hlast : noTrailingStrip (cleanVersion x) = true) :
    cleanVersion (cleanVersion x) = cleanVersion x := by
  apply cleanVersion_fix _ _ hhead hlast
  show goTrimSpace (cleanVersion x) = cleanVersion x
  unfold cleanVersion
  exact goTrimSpace_idem _

/-- Witness for C4: the amended idempotence applied to the concrete input
" 1.2.3 ". -/
theorem C4_witness :
    noLeadingStrip (cleanVersion (gs " 1.2.3 ")) = true ∧
    noTrailingStrip (cleanVersion (gs " 1.2.3 ")) = true ∧
    cleanVersion (cleanVersion (gs " 1.2.3 ")) = cleanVersion (gs " 1.2.3 ") :=
  ⟨by decide, by decide, C4_cleanVersion_idempotent (gs " 1.2.3 ") (by decide) (by decide)⟩

/-! ## Claim C6: git tag cleaning -/

/-- Claim C6: the git tag normalization of git.go maps v1.2.3, V2.0.0,
release-1.5.0, rel-2.1.0 and release/3.0.0 to 1.2.3, 2.0.0, 1.5.0, 2.1.0
and 3.0.0 respectively. -/
theorem C6_git_tag_cleaning :
    cleanVersionFromTag (gs "v1.2.3") = gs "1.2.3" ∧
    cleanVersionFromTag (gs "V2.0.0") = gs "2.0.0" ∧
    cleanVersionFromTag (gs "release-1.5.0") = gs "1.5.0" ∧
    cleanVersionFromTag (gs "rel-2.1.0") = gs "2.1.0" ∧
    cleanVersionFromTag (gs "release/3.0.0") = gs "3.0.0" := by
  refine ⟨?_, ?_, ?_, ?_, ?_⟩ <;> decide

/-! ## Claim C7: the file size ceiling -/

/-- Claim C7: validation fails with the file-too-large error exactly when
the size strictly exceeds the 10 MiB ceiling; a file of exactly the ceiling
is read successfully, and a file one byte over is rejected independently of
the content oracle, i.e. before any content is read. -/
theorem C7_file_size_boundary (stat : GoStr → Option Nat) (p : GoStr) (size : Nat)
    (h : stat p = some size) :
    (ValidateFileSize stat p = some FileError.fileTooLarge ↔ maxFileSizeLimit < size) ∧
    (size = maxFileSizeLimit →
      ∀ readF content, readF p = some content →
        ReadFileContent stat readF p false = Except.ok content) ∧
    (size = maxFileSizeLimit + 1 →
      ∀ readF, ReadFileContent stat readF p false = Except.error FileError.fileTooLarge) := by
  refine ⟨?_, ?_, ?_⟩
  · unfold ValidateFileSize
    rw [h]
    by_cases hgt : maxFileSizeLimit < size
    · simp [hgt]
    · simp [hgt]
  · intro hsz readF content hrd
    unfold ReadFileContent ValidateFileSize
    rw [h, hsz]
    simp [hrd]
  · intro hsz readF
    unfold ReadFileContent ValidateFileSize
    rw [h, hsz]
    simp

/-- Witness for C7: the boundary theorem applied to a concrete size oracle
that reports exactly the ceiling. -/
theorem C7_witness :
    ValidateFileSize (fun _ => some maxFileSizeLimit) (gs "a") =
        some FileError.fileTooLarge ↔ maxFileSizeLimit < maxFileSizeLimit :=
  (C7_file_size_boundary (fun _ => some maxFileSizeLimit) (gs "a") maxFileSizeLimit rfl).1

/-! ## Claim C10: validity checking only in the tag-list strategy -/

theorem firstValidTag_cons (a : GoStr) (rest : List GoStr) :
    firstValidTag (a :: rest) =
      (if (goTrimSpace a).isEmpty then firstValidTag rest
       else if isValidVersionTag (cleanVersionFromTag (goTrimSpace a)) then
         Except.ok (cleanVersionFromTag (goTrimSpace a), goTrimSpace a)
       else firstValidTag rest) := rfl

theorem firstValidTag_sound (l : List GoStr) : ∀ v t,
    firstValidTag l = Except.ok (v, t) → isValidVersionTag v = true := by
  induction l with
  | nil =>
    intro v t h
    exact Except.noConfusion h
  | cons a rest ih =>
    intro v t h
    rw [firstValidTag_cons] at h
    by_cases he : (goTrimSpace a).isEmpty = true
    · rw [if_pos he] at h
      exact ih v t h
    · rw [if_neg he] at h
      by_cases hv : isValidVersionTag (cleanVersionFromTag (goTrimSpace a)) = true
      · rw [if_pos hv] at h
        injection h with h2
        obtain ⟨h3, _⟩ := Prod.mk.inj h2
        rw [← h3]
        exact hv
      · rw [if_neg hv] at h
        exact ih v t h

theorem tagLinesCase_sound (l : List GoStr) : ∀ v t,
    tagLinesCase l = Except.ok (v, t) → isValidVersionTag v = true := by
  intro v t h
  cases l with
  | nil => exact Except.noConfusion h
  | cons first rest =>
    have h1 : (if first.isEmpty = true then Except.error (gs "no tags found")
        else firstValidTag (first :: rest)) = Except.ok (v, t) := h
    by_cases he : first.isEmpty = true
    · rw [if_pos he] at h1
      exact Except.noConfusion h1
    · rw [if_neg he] at h1
      exact firstValidTag_sound (first :: rest) v t h1

/-- Claim C10: version validity checking is applied only in strategy 5 (the
sorted tag list): every non-empty trimmed describe output is returned
cleaned but unchecked, the tag-list strategy returns only validated
versions, and a repository whose only tag is latest (reachable solely by
the unrestricted describe strategy) makes the resolver report success with
a version matching none of the validity patterns. -/
theorem C10_validity_only_in_list_strategy :
    (∀ genv pat out, genv.describeOut pat = Except.ok out →
       (goTrimSpace out).isEmpty = false →
       getTagWithDescribe genv pat =
         Except.ok (cleanVersionFromTag (goTrimSpace out), goTrimSpace out)) ∧
    (∀ genv v t, getTagWithList genv = Except.ok (v, t) → isValidVersionTag v = true) ∧
    (tryGetLatestTag genvLatest = Except.ok (gs "latest", gs "latest") ∧
       isValidVersionTag (gs "latest") = false) := by
  refine ⟨?_, ?_, ?_, ?_⟩
  · intro genv pat out hout hne
    unfold getTagWithDescribe
    rw [hout]
    simp only [hne]
    rfl
  · intro genv v t h
    unfold getTagWithList at h
    revert h
    cases genv.tagListOut with
    | error e => intro h; exact Except.noConfusion h
    | ok output =>
      intro h
      have h1 : tagLinesCase (splitLines (goTrimSpace output)) = Except.ok (v, t) := h
      exact tagLinesCase_sound (splitLines (goTrimSpace output)) v t h1
  · rfl
  · decide

/-- Witness for C10: the describe part applied to the latest-only
environment, and the tag-list soundness applied to a concrete environment
whose first listed tag is rejected. -/
theorem C10_witness :
    getTagWithDescribe genvLatest [] = Except.ok (gs "latest", gs "latest") ∧
    isValidVersionTag (gs "1.2.3") = true :=
  ⟨by
     have h := C10_validity_only_in_list_strategy.1 genvLatest [] (gs "latest\n") rfl rfl
     rw [h]
     rfl,
   C10_validity_only_in_list_strategy.2.1 genvList (gs "1.2.3") (gs "1.2.3") rfl⟩

/-! ## Claim C3: section-aware pyproject.toml matching -/

theorem sectionStateAfter_cons (inProj : Bool) (line : GoStr) (rest : List GoStr) :
    sectionStateAfter inProj (line :: rest) =
      sectionStateAfter
        (if goStartsWith (goTrimSpace line) (gs "[") then
           decide (goTrimSpace line = gs "[project]")
         else inProj)
        rest := rfl

theorem sectionStateAfter_nil (inProj : Bool) : sectionStateAfter inProj [] = inProj := rfl

theorem pyprojectScan_sound (lines : List GoStr) : ∀ (inProj : Bool) (v : GoStr),
    pyprojectScanLoop inProj lines = some v →
    ∃ pre line post, lines = pre ++ line :: post ∧
      acceptsVersionLine (sectionStateAfter inProj pre) line v := by
  induction lines with
  | nil =>
    intro inProj v h
    simp [pyprojectScanLoop] at h
  | cons line rest ih =>
    intro inProj v h
    simp only [pyprojectScanLoop] at h
    split at h
    next hbr =>
      obtain ⟨pre, l, post, hdec, hacc⟩ := ih _ _ h
      refine ⟨line :: pre, l, post, by rw [hdec]; rfl, ?_⟩
      rw [sectionStateAfter_cons, if_pos hbr]
      exact hacc
    next hbr =>
      split at h
      next hin =>
        split at h
        next v0 hcap =>
          by_cases hval : (!v0.isEmpty && isValidVersion v0) = true
          · rw [if_pos hval] at h
            injection h with h2
            obtain ⟨hin1, hin2⟩ := (Bool.and_eq_true _ _) ▸ hin
            obtain ⟨hv1, hv2⟩ := (Bool.and_eq_true _ _) ▸ hval
            refine ⟨[], line, rest, rfl, ?_⟩
            rw [sectionStateAfter_nil]
            subst h2
            exact ⟨hin1, by simpa using hbr, by simpa using hin2,
              hcap, by simpa using hv1, hv2⟩
          · rw [if_neg hval] at h
            obtain ⟨pre, l, post, hdec, hacc⟩ := ih _ _ h
            refine ⟨line :: pre, l, post, by rw [hdec]; rfl, ?_⟩
            rw [sectionStateAfter_cons, if_neg (by simpa using hbr)]
            exact hacc
        next hcap =>
          obtain ⟨pre, l, post, hdec, hacc⟩ := ih _ _ h
          refine ⟨line :: pre, l, post, by rw [hdec]; rfl, ?_⟩
          rw [sectionStateAfter_cons, if_neg (by simpa using hbr)]
          exact hacc
      next =>
        obtain ⟨pre, l, post, hdec, hacc⟩ := ih _ _ h
        refine ⟨line :: pre, l, post, by rw [hdec]; rfl, ?_⟩
        rw [sectionStateAfter_cons, if_neg (by simpa using hbr)]
        exact hacc

/-- Claim C3: the pyproject.toml section scan accepts a version key only on
a non-comment, non-header line while the state says inside the top-level
[project] section (the state being the fold of the header transitions over
the preceding lines); the concrete [project] section with version 7.0.0
followed by a [project.dependencies] subtable yields 7.0.0, and a version
key only inside a [project.metadata] subtable is never returned by the
scan. -/
theorem C3_pyproject_section_scan :
    (∀ lines inProj v, pyprojectScanLoop inProj lines = some v →
       ∃ pre line post, lines = pre ++ line :: post ∧
         acceptsVersionLine (sectionStateAfter inProj pre) line v) ∧
    pyprojectScanLoop false (splitLines
      (gs "[project]\nname = \"x\"\nversion = \"7.0.0\"\n\n[project.dependencies]\nfoo = \"1\"")) =
      some (gs "7.0.0") ∧
    pyprojectScanLoop false (splitLines
      (gs "[project]\nname = \"x\"\n\n[project.metadata]\nversion = \"9.9.9\"")) = none := by
  refine ⟨fun lines inProj v h => pyprojectScan_sound lines inProj v h, by decide, by decide⟩

/-- Witness for C3: the soundness part applied to a concrete two-line file,
exhibiting the accepted line. -/
theorem C3_witness :
    ∃ pre line post,
      splitLines (gs "[project]\nversion = \"4.5.6\"") = pre ++ line :: post ∧
      acceptsVersionLine (sectionStateAfter false pre) line (gs "4.5.6") :=
  C3_pyproject_section_scan.1 (splitLines (gs "[project]\nversion = \"4.5.6\"")) false
    (gs "4.5.6") (by decide)

/-! ## Claim C1: the first producing descriptor wins -/

theorem extractLoop_cons_error (env : Env) (e : VersionExtractor) (project : ProjectConfig)
    (rest : List ProjectConfig) (msg : GoStr)
    (h : tryExtractFromProject env e project = Except.error msg) :
    extractLoop env e (project :: rest) = extractLoop env e rest := by
  conv_lhs => unfold extractLoop
  rw [h]

theorem extractLoop_cons_ok (env : Env) (e : VersionExtractor) (project : ProjectConfig)
    (rest : List ProjectConfig) (result : ExtractResult)
    (h : tryExtractFromProject env e project = Except.ok result) :
    extractLoop env e (project :: rest) =
      (if result.Success then Except.ok result else extractLoop env e rest) := by
  conv_lhs => unfold extractLoop
  rw [h]

theorem extractLoop_first (env : Env) (e : VersionExtractor) (ps : List ProjectConfig)
    (p : ProjectConfig) (qs : List ProjectConfig) (r : ExtractResult)
    (hskip : ∀ q ∈ ps, isProduced (tryExtractFromProject env e q) = false)
    (hp : tryExtractFromProject env e p = Except.ok r) (hs : r.Success = true) :
    extractLoop env e (ps ++ p :: qs) = Except.ok r := by
  induction ps with
  | nil =>
    rw [List.nil_append, extractLoop_cons_ok env e p qs r hp, if_pos hs]
  | cons q ps ih =>
    rw [List.cons_append]
    have hq := hskip q (List.mem_cons_self q ps)
    have htail : ∀ x ∈ ps, isProduced (tryExtractFromProject env e x) = false :=
      fun x hx => hskip x (List.mem_cons_of_mem q hx)
    cases htp : tryExtractFromProject env e q with
    | error msg =>
      rw [extractLoop_cons_error env e q (ps ++ p :: qs) msg htp]
      exact ih htail
    | ok result =>
      rw [htp] at hq
      have hfail : result.Success = false := hq
      rw [extractLoop_cons_ok env e q (ps ++ p :: qs) result htp,
        if_neg (by rw [hfail]; exact Bool.false_ne_true)]
      exact ih htail

/-- Claim C1: in directory extraction over the ordered descriptor list, the
result of the first descriptor that produces a successful result is
returned, regardless of what any later descriptor (the tail qs) would
produce, and without consulting or combining any other result. -/
theorem C1_first_descriptor_wins (env : Env) (e : VersionExtractor)
    (ps : List ProjectConfig) (p : ProjectConfig) (qs : List ProjectConfig) (r : ExtractResult)
    (hconf : e.config.Projects = ps ++ p :: qs)
    (hskip : ∀ q ∈ ps, isProduced (tryExtractFromProject env e q) = false)
    (hp : tryExtractFromProject env e p = Except.ok r)
    (hs : r.Success = true) :
    extractFromDirectory env e = Except.ok r := by
  unfold extractFromDirectory
  rw [hconf]
  exact extractLoop_first env e ps p qs r hskip hp hs

/-- Witness for C1: with three descriptors of which the second and third
both match, the second (first producing) one is returned. -/
theorem C1_witness :
    extractFromDirectory envC1 eC1 =
      Except.ok (staticResult projB (gs "Cargo.toml") (gs "1.2.3") (gs "pcg")) :=
  C1_first_descriptor_wins envC1 eC1 [projA] projB [projC]
    (staticResult projB (gs "Cargo.toml") (gs "1.2.3") (gs "pcg")) rfl
    (fun q hq => by
      rw [List.mem_singleton] at hq
      subst hq
      rfl)
    rfl rfl

/-! ## Claim C2: dynamic result preferred over static for a candidate file -/

theorem detect_true_nonempty (env : Env) (file : GoStr)
    (inds : List DynamicVersionIndicator)
    (h : detectDynamicVersioning env file inds = Except.ok true) : inds.isEmpty = false := by
  cases inds with
  | cons _ _ => rfl
  | nil =>
    exfalso
    unfold detectDynamicVersioning at h
    revert h
    cases envRead env file true with
    | error e => intro h; exact Except.noConfusion h
    | ok content =>
      intro h
      have h2 : (Except.ok false : Except GoStr Bool) = Except.ok true := h
      injection h2 with h3
      exact Bool.noConfusion h3

theorem tryFiles_cons_ok (env : Env) (e : VersionExtractor) (project : ProjectConfig)
    (file : GoStr) (rest : List GoStr) (version matchedRegex : GoStr)
    (h : extractVersionFromFile env file project.Regex = Except.ok (version, matchedRegex)) :
    tryFiles env e project (file :: rest) =
      (match dynamicAttempt env e project file with
       | some r => Except.ok r
       | none =>
         if !version.isEmpty then Except.ok (staticResult project file version matchedRegex)
         else tryFiles env e project rest) := by
  conv_lhs => unfold tryFiles
  rw [h]

theorem tryFiles_cons_error (env : Env) (e : VersionExtractor) (project : ProjectConfig)
    (file : GoStr) (rest : List GoStr) (msg : GoStr)
    (h : extractVersionFromFile env file project.Regex = Except.error msg) :
    tryFiles env e project (file :: rest) = tryFiles env e project rest := by
  conv_lhs => unfold tryFiles
  rw [h]

/-- Claim C2: for a descriptor with a non-empty pattern list whose matcher
call on a candidate file succeeds, the per-file step of the orchestrator
returns the dynamic-git-tag result (original tag recorded) whenever dynamic
fallback is enabled, the descriptor supports it, the detector signals true
and the git resolver succeeds — in preference to any static match from the
same file — and otherwise returns the static result when the matcher
produced a non-empty version.  The first conjunct ties the per-file loop to
tryExtractFromProject when the file is the first candidate found. -/
theorem C2_dynamic_preferred_over_static (env : Env) (e : VersionExtractor)
    (project : ProjectConfig) (file : GoStr) (rest : List GoStr)
    (version matchedRegex : GoStr)
    (hregex : project.Regex.isEmpty = false)
    (hm : extractVersionFromFile env file project.Regex = Except.ok (version, matchedRegex)) :
    (env.findFiles project.File = Except.ok (file :: rest) →
       tryExtractFromProject env e project = tryFiles env e project (file :: rest)) ∧
    ((e.dynamicFallback = true ∧ project.SupportsDynamicVersioning = true ∧
      detectDynamicVersioning env file project.DynamicVersionIndicators = Except.ok true ∧
      env.git.Success = true) →
      tryFiles env e project (file :: rest) = Except.ok (dynamicTagResult project file env.git)) ∧
    ((version.isEmpty = false ∧
      (e.dynamicFallback = false ∨ project.SupportsDynamicVersioning = false ∨
       detectDynamicVersioning env file project.DynamicVersionIndicators ≠ Except.ok true ∨
       env.git.Success = false)) →
      tryFiles env e project (file :: rest) =
        Except.ok (staticResult project file version matchedRegex)) := by
  refine ⟨?_, ?_, ?_⟩
  · intro hfind
    unfold tryExtractFromProject
    rw [if_neg (by rw [hregex]; exact Bool.false_ne_true), hfind]
    rfl
  · rintro ⟨hdf, hsup, hdet, hgit⟩
    have hne := detect_true_nonempty env file project.DynamicVersionIndicators hdet
    have hdyn : dynamicAttempt env e project file =
        some (dynamicTagResult project file env.git) := by
      unfold dynamicAttempt
      rw [hdf, hsup, hne, hdet]
      simp [hgit]
    rw [tryFiles_cons_ok env e project file rest version matchedRegex hm, hdyn]
  · rintro ⟨hver, hdisj⟩
    have hdyn : dynamicAttempt env e project file = none := by
      unfold dynamicAttempt
      rcases hdisj with hdf | hsup | hdet | hgit
      · simp [hdf]
      · simp [hsup]
      · split
        · cases hd : detectDynamicVersioning env file project.DynamicVersionIndicators with
          | error msg => rfl
          | ok b =>
            cases b with
            | true => exact absurd hd hdet
            | false => rfl
        · rfl
      · split
        · cases hd : detectDynamicVersioning env file project.DynamicVersionIndicators with
          | error msg => rfl
          | ok b =>
            cases b with
            | true => simp [hgit]
            | false => rfl
        · rfl
    rw [tryFiles_cons_ok env e project file rest version matchedRegex hm, hdyn]
    have hv : (!version.isEmpty) = true := by rw [hver]; rfl
    simp [hv]

/-- Witness for C2: in the concrete scenario the dynamic result with
version 2.1.4 and git tag v2.1.4 is returned although the matcher found the
static placeholder 0.0.0-development. -/
theorem C2_witness :
    tryFiles envC2 eC2 projD [gs "package.json"] =
      Except.ok (dynamicTagResult projD (gs "package.json") envC2.git) :=
  (C2_dynamic_preferred_over_static envC2 eC2 projD (gs "package.json") []
    (gs "0.0.0-development") (gs "pjs") rfl rfl).2.1 ⟨rfl, rfl, rfl, rfl⟩

/-! ## Claim C5: routing of pyproject.toml to the section-aware matcher -/

theorem suffix_of_base (fp : GoStr) (hnz : fp ≠ []) (hsl : fp.getLast? ≠ some '/')
    (hb : goBase fp = gs "pyproject.toml") :
    goEndsWith fp (gs "pyproject.toml") = true := by
  have hne : fp.isEmpty = false := by
    cases fp with
    | nil => exact absurd rfl hnz
    | cons a t => rfl
  have hq : goTrimRightIf (fun c => c = '/') fp = fp := by
    apply trimRight_fix
    intro c t hct
    have hgl : fp.getLast? = some c := by
      rw [List.getLast?_eq_head?_reverse, hct]
      rfl
    have hc : c ≠ '/' := fun hcc => hsl (by rw [hgl, hcc])
    simp [hc]
  simp only [goBase, hne, Bool.false_eq_true, if_false, hq] at hb
  have h1 : fp.reverse.takeWhile (fun c => c != '/') = (gs "pyproject.toml").reverse := by
    have h0 := congrArg List.reverse hb
    rwa [List.reverse_reverse] at h0
  have h2 : (gs "pyproject.toml").reverse <+: fp.reverse := by
    rw [← h1]
    exact List.takeWhile_prefix _
  have h3 : gs "pyproject.toml" <:+ fp := List.reverse_prefix.mp h2
  exact List.isSuffixOf_iff_suffix.mpr h3

/-- Claim C5 amended: the matcher routes a file to the section-aware
pyproject algorithm exactly when its path ends with the suffix
pyproject.toml — in particular for every file whose base name is
pyproject.toml — and to the generic pattern matcher for every path without
that suffix; a base name other than pyproject.toml that still carries the
suffix (such as foo-pyproject.toml) is also routed to the section-aware
algorithm, contrary to the claim as stated. -/
theorem C5_pyproject_routing (env : Env) (filePath : GoStr) (patterns : List GoStr)
    (hnz : filePath ≠ []) (hsl : filePath.getLast? ≠ some '/') :
    (goBase filePath = gs "pyproject.toml" →
       extractVersionFromFile env filePath patterns = extractFromPyprojectToml env filePath) ∧
    (goEndsWith filePath (gs "pyproject.toml") = false →
       extractVersionFromFile env filePath patterns =
         env.extractWithPatterns filePath patterns) := by
  constructor
  · intro hb
    have hsuf := suffix_of_base filePath hnz hsl hb
    unfold extractVersionFromFile
    rw [if_pos hsuf]
  · intro hnend
    unfold extractVersionFromFile
    rw [if_neg (by rw [hnend]; exact Bool.false_ne_true)]

/-- Counterexample for C5 as stated: foo-pyproject.toml has a base name
other than pyproject.toml, yet the matcher uses the section-aware algorithm
for it (returning the [project] value 1.2.3) instead of the generic matcher
(which would return 9.9.9). -/
theorem C5_counterexample :
    goBase (gs "foo-pyproject.toml") ≠ gs "pyproject.toml" ∧
    extractVersionFromFile env5 (gs "foo-pyproject.toml") [gs "pat"] =
      Except.ok (gs "1.2.3", gs "[project] section version") ∧
    env5.extractWithPatterns (gs "foo-pyproject.toml") [gs "pat"] =
      Except.ok (gs "9.9.9", gs "pat") :=
  ⟨by decide, rfl, rfl⟩

/-- Witness for C5: the amended routing applied to the concrete path
a/pyproject.toml, whose base name is pyproject.toml. -/
theorem C5_witness :
    extractVersionFromFile env5 (gs "a/pyproject.toml") [gs "pat"] =
      extractFromPyprojectToml env5 (gs "a/pyproject.toml") :=
  (C5_pyproject_routing env5 (gs "a/pyproject.toml") [gs "pat"]
    (by decide) (by decide)).1 (by decide)

/-! ## Claim C8: version source values of successful results -/

theorem ok_empty_not_success (r : ExtractResult)
    (h : (Except.ok ({} : ExtractResult) : Except GoStr ExtractResult) = Except.ok r)
    (hs : r.Success = true) : False := by
  injection h with h2
  rw [← h2] at hs
  exact Bool.noConfusion hs

theorem dynamicAttempt_source (env : Env) (e : VersionExtractor) (project : ProjectConfig)
    (file : GoStr) (r : ExtractResult)
    (h : dynamicAttempt env e project file = some r) :
    r.VersionSource = gs "dynamic-git-tag" := by
  unfold dynamicAttempt at h
  revert h
  split
  · cases detectDynamicVersioning env file project.DynamicVersionIndicators with
    | error msg => intro h; exact Option.noConfusion h
    | ok b =>
      cases b with
      | false => intro h; exact Option.noConfusion h
      | true =>
        by_cases hg : env.git.Success = true
        · rw [if_pos hg]
          intro h
          injection h with h2
          rw [← h2]
          rfl
        · rw [if_neg hg]
          intro h
          exact Option.noConfusion h
  · intro h
    exact Option.noConfusion h

theorem tryFiles_source (env : Env) (e : VersionExtractor) (project : ProjectConfig) :
    ∀ (files : List GoStr) (r : ExtractResult),
      tryFiles env e project files = Except.ok r → r.Success = true →
      (r.VersionSource = gs "static" ∨ r.VersionSource = gs "dynamic-git-tag") := by
  intro files
  induction files with
  | nil =>
    intro r h hs
    exact (ok_empty_not_success r h hs).elim
  | cons file rest ih =>
    intro r h hs
    cases hx : extractVersionFromFile env file project.Regex with
    | error msg =>
      rw [tryFiles_cons_error env e project file rest msg hx] at h
      exact ih r h hs
    | ok pair =>
      obtain ⟨version, matchedRegex⟩ := pair
      rw [tryFiles_cons_ok env e project file rest version matchedRegex hx] at h
      cases hd : dynamicAttempt env e project file with
      | some r2 =>
        rw [hd] at h
        have h2 : Except.ok r2 = Except.ok r := h
        injection h2 with h3
        right
        rw [← h3]
        exact dynamicAttempt_source env e project file r2 hd
      | none =>
        rw [hd] at h
        have h2 : (if !version.isEmpty then
            Except.ok (staticResult project file version matchedRegex)
            else tryFiles env e project rest) = Except.ok r := h
        by_cases hv : (!version.isEmpty) = true
        · rw [if_pos hv] at h2
          injection h2 with h3
          left
          rw [← h3]
          rfl
        · rw [if_neg hv] at h2
          exact ih r h2 hs

theorem tryExtract_source (env : Env) (e : VersionExtractor) (project : ProjectConfig)
    (r : ExtractResult) (h : tryExtractFromProject env e project = Except.ok r)
    (hs : r.Success = true) :
    (r.VersionSource = gs "static" ∨ r.VersionSource = gs "dynamic-git-tag") := by
  unfold tryExtractFromProject at h
  revert h
  split
  · split
    · intro h
      exact (ok_empty_not_success r h hs).elim
    · cases env.findFiles project.File with
      | error msg => intro h; exact (ok_empty_not_success r h hs).elim
      | ok files =>
        cases files with
        | nil => intro h; exact (ok_empty_not_success r h hs).elim
        | cons f fs =>
          intro h
          have h2 : (if env.git.Success = true then
              Except.ok (gitFallbackResult project f env.git)
              else (Except.ok ({} : ExtractResult) : Except GoStr ExtractResult)) =
              Except.ok r := h
          by_cases hg : env.git.Success = true
          · rw [if_pos hg] at h2
            injection h2 with h3
            right
            rw [← h3]
            rfl
          · rw [if_neg hg] at h2
            exact (ok_empty_not_success r h2 hs).elim
  · cases env.findFiles project.File with
    | error msg => intro h; exact Except.noConfusion h
    | ok files =>
      intro h
      have h2 : (if files.isEmpty = true then
          (Except.ok ({} : ExtractResult) : Except GoStr ExtractResult)
          else tryFiles env e project files) = Except.ok r := h
      by_cases hfe : files.isEmpty = true
      · rw [if_pos hfe] at h2
        exact (ok_empty_not_success r h2 hs).elim
      · rw [if_neg hfe] at h2
        exact tryFiles_source env e project files r h2 hs

theorem extractLoop_source (env : Env) (e : VersionExtractor) :
    ∀ (plist : List ProjectConfig) (r : ExtractResult),
      extractLoop env e plist = Except.ok r →
      (r.VersionSource = gs "static" ∨ r.VersionSource = gs "dynamic-git-tag") := by
  intro plist
  induction plist with
  | nil => intro r h; exact Except.noConfusion h
  | cons project rest ih =>
    intro r h
    cases htp : tryExtractFromProject env e project with
    | error msg =>
      rw [extractLoop_cons_error env e project rest msg htp] at h
      exact ih r h
    | ok result =>
      rw [extractLoop_cons_ok env e project rest result htp] at h
      by_cases hsuc : result.Success = true
      · rw [if_pos hsuc] at h
        injection h with h2
        rw [← h2]
        exact tryExtract_source env e project result htp hsuc
      · rw [if_neg hsuc] at h
        exact ih r h

theorem specificFile_source (env : Env) (e : VersionExtractor) (filePath : GoStr)
    (r : ExtractResult) (err : Option GoStr)
    (h : extractFromSpecificFile env e filePath = (r, err)) (hs : r.Success = true) :
    r.VersionSource = [] := by
  simp only [extractFromSpecificFile] at h
  revert h
  cases e.config.Projects.find?
      (fun project => fileMatchesPattern env (goBase filePath) project.File) with
  | none =>
    intro h
    injection h with h1 h2
    rw [← h1] at hs
    exact Bool.noConfusion hs
  | some matchingProject =>
    intro h
    have h1 : (match extractVersionFromFile env filePath matchingProject.Regex with
        | Except.error msg =>
          (({} : ExtractResult), some (gs "error processing file: " ++ msg))
        | Except.ok (version, matchedRegex) =>
          if !version.isEmpty then
            ({ Version := version, ProjectType := matchingProject.Ptype,
               Subtype := matchingProject.Subtype, File := filePath,
               MatchedBy := matchedRegex, Success := true }, none)
          else (({} : ExtractResult), some (gs "no valid version found in file"))) =
        (r, err) := h
    revert h1
    cases extractVersionFromFile env filePath matchingProject.Regex with
    | error msg =>
      intro h1
      injection h1 with ha hb
      rw [← ha] at hs
      exact Bool.noConfusion hs
    | ok pair =>
      obtain ⟨version, matchedRegex⟩ := pair
      intro h1
      have h2 : (if (!version.isEmpty) = true then
          (({ Version := version, ProjectType := matchingProject.Ptype,
              Subtype := matchingProject.Subtype, File := filePath,
              MatchedBy := matchedRegex, Success := true } : ExtractResult),
            (none : Option GoStr))
          else (({} : ExtractResult), some (gs "no valid version found in file"))) =
          (r, err) := h1
      by_cases hv : (!version.isEmpty) = true
      · rw [if_pos hv] at h2
        injection h2 with ha hb
        rw [← ha]
      · rw [if_neg hv] at h2
        injection h2 with ha hb
        rw [← ha] at hs
        exact Bool.noConfusion hs

/-- Claim C8 amended: every successful directory-mode result (per
descriptor attempt and for the whole directory extraction) carries a
version source of static or dynamic-git-tag, while a successful
single-file-mode result always leaves the version source field empty (the
Go zero value), contrary to the claim as stated. -/
theorem C8_version_source_values (env : Env) (e : VersionExtractor) :
    (∀ project r, tryExtractFromProject env e project = Except.ok r → r.Success = true →
       (r.VersionSource = gs "static" ∨ r.VersionSource = gs "dynamic-git-tag")) ∧
    (∀ r, extractFromDirectory env e = Except.ok r →
       (r.VersionSource = gs "static" ∨ r.VersionSource = gs "dynamic-git-tag")) ∧
    (∀ filePath r err, extractFromSpecificFile env e filePath = (r, err) → r.Success = true →
       r.VersionSource = []) :=
  ⟨fun project r h hs => tryExtract_source env e project r h hs,
   fun r h => extractLoop_source env e e.config.Projects r h,
   fun filePath r err h hs => specificFile_source env e filePath r err h hs⟩

/-- Counterexample for C8 as stated: a successful single-file extraction
whose version source equals neither static nor dynamic-git-tag (it is the
empty zero value). -/
theorem C8_counterexample :
    (extractFromSpecificFile env8 e8 (gs "package.json")).1.Success = true ∧
    (extractFromSpecificFile env8 e8 (gs "package.json")).1.VersionSource ≠ gs "static" ∧
    (extractFromSpecificFile env8 e8 (gs "package.json")).1.VersionSource ≠
      gs "dynamic-git-tag" := by
  refine ⟨rfl, ?_, ?_⟩ <;> decide

/-- Witness for C8: the single-file part of the amended statement applied
to the concrete successful extraction. -/
theorem C8_witness :
    (extractFromSpecificFile env8 e8 (gs "package.json")).1.VersionSource = [] :=
  (C8_version_source_values env8 e8).2.2 (gs "package.json")
    (extractFromSpecificFile env8 e8 (gs "package.json")).1
    (extractFromSpecificFile env8 e8 (gs "package.json")).2 rfl rfl

/-! ## Claim C9: the ten-file cap of the version-file fallback -/

theorem tryVersionFiles_stop (env : Env) (f : GoStr) (rest : List GoStr) (k : Nat)
    (hk : maxVersionFilesToCheck ≤ k) :
    tryVersionFiles env (f :: rest) k = none := by
  conv_lhs => unfold tryVersionFiles
  rw [if_pos hk]

theorem tryVersionFiles_step_ok (env : Env) (f : GoStr) (rest : List GoStr) (k : Nat)
    (v mr : GoStr) (hk : ¬ maxVersionFilesToCheck ≤ k)
    (h : env.extractWithPatterns f [versionPyPattern] = Except.ok (v, mr)) :
    tryVersionFiles env (f :: rest) k =
      (if !v.isEmpty then some (v, gs "__version__.py")
       else tryVersionFiles env rest (k + 1)) := by
  conv_lhs => unfold tryVersionFiles
  rw [if_neg hk, h]

theorem tryVersionFiles_step_error (env : Env) (f : GoStr) (rest : List GoStr) (k : Nat)
    (msg : GoStr) (hk : ¬ maxVersionFilesToCheck ≤ k)
    (h : env.extractWithPatterns f [versionPyPattern] = Except.error msg) :
    tryVersionFiles env (f :: rest) k = tryVersionFiles env rest (k + 1) := by
  conv_lhs => unfold tryVersionFiles
  rw [if_neg hk, h]

theorem tryVersionFiles_take (env : Env) :
    ∀ (files : List GoStr) (k : Nat),
      tryVersionFiles env files k =
        tryVersionFiles env (files.take (maxVersionFilesToCheck - k)) k := by
  intro files
  induction files with
  | nil => intro k; rw [List.take_nil]
  | cons f rest ih =>
    intro k
    by_cases hk : maxVersionFilesToCheck ≤ k
    · rw [Nat.sub_eq_zero_of_le hk, List.take_zero, tryVersionFiles_stop env f rest k hk]
      rfl
    · obtain ⟨n, hn⟩ : ∃ n, maxVersionFilesToCheck - k = n + 1 :=
        ⟨maxVersionFilesToCheck - k - 1, by omega⟩
      rw [hn, List.take_succ_cons]
      have hrec : tryVersionFiles env rest (k + 1) =
          tryVersionFiles env (rest.take n) (k + 1) := by
        have h0 := ih (k + 1)
        rwa [show maxVersionFilesToCheck - (k + 1) = n from by omega] at h0
      cases hx : env.extractWithPatterns f [versionPyPattern] with
      | ok pair =>
        obtain ⟨v, mr⟩ := pair
        rw [tryVersionFiles_step_ok env f rest k v mr hk hx,
          tryVersionFiles_step_ok env f (rest.take n) k v mr hk hx, hrec]
      | error msg =>
        rw [tryVersionFiles_step_error env f rest k msg hk hx,
          tryVersionFiles_step_error env f (rest.take n) k msg hk hx, hrec]

/-- Claim C9: the version-file fallback inspects at most ten candidates of
the concatenated glob batches (project root, then src subdirectories, then
immediate subdirectories): its outcome equals the outcome on the first ten
candidates alone; concretely, with fifteen qualifying files a version
present only in the eleventh is never returned, while one in the tenth is
returned. -/
theorem C9_version_file_cap :
    (∀ (env : Env) (files : List GoStr),
       tryVersionFiles env files 0 =
         tryVersionFiles env (files.take maxVersionFilesToCheck) 0) ∧
    extractFromPyprojectToml env9 (gs "proj/pyproject.toml") = Except.ok ([], []) ∧
    extractFromPyprojectToml env9b (gs "proj/pyproject.toml") =
      Except.ok (gs "5.5.5", gs "__version__.py") := by
  refine ⟨?_, rfl, rfl⟩
  intro env files
  have h := tryVersionFiles_take env files 0
  rwa [Nat.sub_zero] at h

end VEA
